import Mathlib

/-!
Shallow embedding of the confirm/close rendezvous and the GUI helper
components of TwitchDropsMiner's Qt GUI layer (`gui_qt.py`), together with
proofs of the behavioural properties claimed about them.

Conventions used throughout:
* Python strings are Lean `String`s (lists of unicode scalars); where a
  property needs line structure we also work over `List Char` directly.
* Exceptions are modelled with `Except`: a function that can raise returns
  `Except PyErr _` (or `Except GuiSignal _` for the distinguished
  control-flow signals `ExitRequest` / `ReloadRequest` from `exceptions.py`).
* `asyncio` futures are values of `FutureState`; an `asyncio.Event` is a
  `Bool` flag; the completion of a suspended `await` is an explicit
  observation passed to the function that contains the `await`.
-/

set_option autoImplicit false

/-- Python exceptions that the modelled code can raise. -/
inductive PyErr
  | invalidState
  | attributeError
  | requestError
  | saveError
  deriving DecidableEq

/-- Distinguished control-flow signals from `exceptions.py`: `ExitRequest`
is raised to unwind to the top-level run loop on shutdown, `ReloadRequest`
forces a full reinitialization after logout. -/
inductive GuiSignal
  | exitRequest
  | reloadRequest
  deriving DecidableEq

/-! ### asyncio futures (as used by `LoginForm._confirm_future`) -/

/-- The lifecycle states of an `asyncio.Future`. -/
inductive FutureState
  | pending
  | resolved
  | cancelled
  deriving DecidableEq

/-- `Future.done()`: true once the future is resolved or cancelled. -/
def FutureState.done : FutureState → Bool
  | .pending => false
  | _ => true

/-- `Future.set_result(None)`: resolves a pending future; raises
`InvalidStateError` when the future is already done. -/
def FutureState.set_result : FutureState → Except PyErr FutureState
  | .pending => .ok .resolved
  | _ => .error .invalidState

/-! ### LoginForm (gui_qt.py lines 890-973) -/

/-- `LoginData` value object (gui_qt.py lines 80-84). -/
structure LoginData where
  username : String
  password : String
  token : String
  deriving DecidableEq

/-- Model of the `LoginForm` widget state: the three line-edit contents,
whether the confirm button is enabled, and the single-slot pending
confirmation future (`_confirm_future`). -/
structure LoginForm where
  _login : String
  _password : String
  _token : String
  _confirm_enabled : Bool
  _confirm_future : Option FutureState
  deriving DecidableEq

/-- `LoginForm.clear` (gui_qt.py lines 920-927): clears the requested
fields; with no argument set, clears the whole form. -/
def LoginForm.clear (s : LoginForm) (login password token : Bool) : LoginForm :=
  let clear_all : Bool := !login && !password && !token
  { s with
    _login := if login || clear_all then "" else s._login
    _password := if password || clear_all then "" else s._password
    _token := if token || clear_all then "" else s._token }

/-- `LoginForm._on_confirm` (gui_qt.py lines 907-910): the UI callback that
resolves the pending confirmation future, guarded so that an absent or
already-completed future is left alone. -/
def LoginForm._on_confirm (s : LoginForm) : Except PyErr LoginForm :=
  match s._confirm_future with
  | none => .ok s
  | some fut =>
    if fut.done then .ok s
    else
      match fut.set_result with
      | .ok fut2 => .ok { s with _confirm_future := some fut2 }
      | .error e => .error e

/-- The ways the `await` inside `_wait_for_confirm` can terminate: normal
resolution, abandonment via `ExitRequest`, or cancellation of the task. -/
inductive WaitOutcome
  | resolved
  | exitRequest
  | taskCancelled
  deriving DecidableEq

/-- Python `try/finally` over explicit state: the finalizer runs on the
post-body state no matter which outcome the body produced, and the body's
outcome (normal return or propagating exception) is preserved. -/
def tryFinallyS {σ ρ : Type} (body : σ → ρ × σ) (fin : σ → σ) (s : σ) : ρ × σ :=
  ((body s).1, fin (body s).2)

/-- `LoginForm._wait_for_confirm` (gui_qt.py lines 929-936): creates the
pending future, enables the confirm button, and awaits
`coro_unless_closed(future)` — modelled as an arbitrary state transition
`body` yielding a `WaitOutcome` — with a `finally` block that disables the
button and empties the future slot. -/
def LoginForm._wait_for_confirm (body : LoginForm → WaitOutcome × LoginForm)
    (s : LoginForm) : WaitOutcome × LoginForm :=
  let s1 := { s with _confirm_future := some .pending, _confirm_enabled := true }
  tryFinallyS body (fun st => { st with _confirm_enabled := false, _confirm_future := none }) s1

/-! ### Login validation (gui_qt.py lines 938-959) -/

/-- Characters removed by Python's `str.strip()` (ASCII whitespace range). -/
def isPySpace (c : Char) : Bool :=
  c == ' ' || c == '\t' || c == '\n' || c == '\r' || c == '\x0b' || c == '\x0c'

/-- Python `str.strip()`: drop leading and trailing whitespace. -/
def pyStrip (s : String) : String :=
  ⟨((s.data.dropWhile isPySpace).reverse.dropWhile isPySpace).reverse⟩

/-- A character of the regex class `[a-zA-Z0-9_]`. -/
def isWordChar (c : Char) : Bool :=
  c.isAlphanum || c == '_'

/-- Nonempty and entirely made of word characters: `[a-zA-Z0-9_]+`
anchored at both ends. -/
def usernameCore (l : List Char) : Bool :=
  !l.isEmpty && l.all isWordChar

/-- Python `re.match(r"^[a-zA-Z0-9_]+$", s)` as a boolean: `$` also matches
just before a single trailing newline. -/
def matchUsernameRe (s : String) : Bool :=
  usernameCore s.data
    || (s.data.getLast? == some '\n' && usernameCore s.data.dropLast)

/-- The username check from `ask_login` (gui_qt.py line 950): length within
3..25 and the whole string matches `[a-zA-Z0-9_]+`. -/
def usernameOk (u : String) : Bool :=
  decide (3 ≤ u.length ∧ u.length ≤ 25) && matchUsernameRe u

/-- Which field a validation failure rejects (and clears). -/
inductive RejectField
  | username
  | password
  | token
  deriving DecidableEq

/-- The contents of the three line edits at the moment the user confirms. -/
structure RawAttempt where
  login : String
  password : String
  token : String
  deriving DecidableEq

/-- Construction of `LoginData` from the widgets (gui_qt.py lines 944-948):
username and token are stripped, the password is taken verbatim. -/
def loginDataOf (a : RawAttempt) : LoginData :=
  ⟨pyStrip a.login, a.password, pyStrip a.token⟩

/-- The validation chain of `ask_login` (gui_qt.py lines 949-958): returns
the first rejected field, or `none` when all checks pass. -/
def validate (d : LoginData) : Option RejectField :=
  if usernameOk d.username = false then some .username
  else if d.password.length < 8 then some .password
  else if d.token ≠ "" ∧ d.token.length < 6 then some .token
  else none

/-- An attempt whose (stripped) values pass all three validation checks. -/
def goodAttempt (a : RawAttempt) : Bool :=
  (validate (loginDataOf a)).isNone

/-- `LoginForm.ask_login` viewed over the sequence of confirmation
attempts it consumes: each element is the form contents at one confirm
click; the loop returns the first attempt that validates, and keeps
looping (`none`) while attempts keep failing. -/
def LoginForm.ask_login : List RawAttempt → Option LoginData
  | [] => none
  | a :: rest =>
    let d := loginDataOf a
    match validate d with
    | none => some d
    | some _ => LoginForm.ask_login rest

/-- One pass of the `ask_login` loop body after the confirm resolves
(gui_qt.py lines 944-959): validate the current form contents; on failure
clear exactly the offending field and go round again (`none`), on success
return the login data. -/
def LoginForm.loop_iteration (s : LoginForm) : LoginForm × Option LoginData :=
  let d := loginDataOf ⟨s._login, s._password, s._token⟩
  match validate d with
  | some .username => (s.clear true false false, none)
  | some .password => (s.clear false true false, none)
  | some .token => (s.clear false false true, none)
  | none => (s, some d)

/-- Modelled from the spec: the login contract as stated in words —
username 3..25 characters matching `[A-Za-z0-9_]+`, password at least 8
characters, optional token empty or at least 6 characters. Used to compare
the code's validation chain against the spec. -/
def specLoginContract (d : LoginData) : Prop :=
  (3 ≤ d.username.length ∧ d.username.length ≤ 25
      ∧ ∀ c ∈ d.username.data, c.isAlphanum = true ∨ c = '_')
    ∧ 8 ≤ d.password.length
    ∧ (d.token = "" ∨ 6 ≤ d.token.length)

/-! ### GUIManager close coordination (gui_qt.py lines 999-1405) -/

/-- The close-coordination state of `GUIManager`: the `_close_requested`
`asyncio.Event` as a boolean flag. -/
structure GUIManager where
  _close_requested : Bool
  deriving DecidableEq

/-- `GUIManager.close` (gui_qt.py lines 1402-1405): sets the close event
(and asks the twitch client to close — external) and returns 0. -/
def GUIManager.close (g : GUIManager) : GUIManager × Int :=
  ({ g with _close_requested := true }, 0)

/-- `GUIManager.prevent_close` (gui_qt.py lines 1383-1384): clears the
close event. -/
def GUIManager.prevent_close (g : GUIManager) : GUIManager :=
  { g with _close_requested := false }

/-- `GUIManager.close_requested` property (gui_qt.py lines 1365-1367). -/
def GUIManager.close_requested (g : GUIManager) : Bool :=
  g._close_requested

/-- `GUIManager.wait_until_closed` (gui_qt.py lines 1369-1370): awaiting
the close event completes exactly when the event is set (`none` models a
wait that is still suspended). -/
def GUIManager.wait_until_closed (g : GUIManager) : Option Unit :=
  if g._close_requested then some () else none

/-- The observation available when `asyncio.wait(..., FIRST_COMPLETED)`
inside `coro_unless_closed` resumes: whether the awaited coroutine has
completed (and with which value), and whether the close event is set.  The
close-wait task is done exactly when the event is set. -/
structure RaceObs (α : Type) where
  coro_result : Option α
  close_set : Bool
  deriving DecidableEq

/-- `GUIManager.coro_unless_closed` (gui_qt.py lines 1372-1381) applied to
a race observation.  Returns `none` while neither side has completed (the
call is still suspended); otherwise returns the call's outcome together
with which of the two waits got cancelled:
`(result, coro wait cancelled, close wait cancelled)`.  Pending (not yet
completed) tasks are the ones cancelled; if the close event is set the
call raises `ExitRequest`, otherwise it returns the coroutine's value. -/
def GUIManager.coro_unless_closed {α : Type} (obs : RaceObs α) :
    Option (Except GuiSignal α × Bool × Bool) :=
  match obs.close_set, obs.coro_result with
  | true, r => some (.error .exitRequest, r.isNone, false)
  | false, some v => some (.ok v, false, true)
  | false, none => none

/-- The operations of the close/prevent-close cycle. -/
inductive CloseOp
  | close_req
  | prevent
  deriving DecidableEq

/-- Apply one close-cycle operation to the manager state. -/
def GUIManager.apply_op (g : GUIManager) : CloseOp → GUIManager
  | .close_req => (g.close).1
  | .prevent => g.prevent_close

/-- Apply a sequence of close/prevent-close calls in order. -/
def GUIManager.apply_ops (g : GUIManager) (ops : List CloseOp) : GUIManager :=
  ops.foldl GUIManager.apply_op g

/-! ### ConsoleOutput (gui_qt.py lines 204-216) -/

/-- Split a character sequence into its lines at `'\n'` (the list of lines
is always nonempty; a trailing newline yields a final empty line). -/
def splitLines : List Char → List (List Char)
  | [] => [[]]
  | c :: rest =>
    if c = '\n' then [] :: splitLines rest
    else (c :: (splitLines rest).headI) :: (splitLines rest).tail

/-- `message.replace("\n", f"\n{stamp}: ")` for a single-character pattern:
re-stamp every embedded newline (gui_qt.py line 215). -/
def ConsoleOutput.restamp (stamp : List Char) : List Char → List Char
  | [] => []
  | c :: rest =>
    if c = '\n' then '\n' :: (stamp ++ [':', ' '] ++ ConsoleOutput.restamp stamp rest)
    else c :: ConsoleOutput.restamp stamp rest

/-- `ConsoleOutput.print` (gui_qt.py lines 212-216): the text handed to the
output widget for a given timestamp `stamp` and message. -/
def ConsoleOutput.print (stamp message : List Char) : List Char :=
  let message := if '\n' ∈ message then ConsoleOutput.restamp stamp message else message
  stamp ++ [':', ' '] ++ message

/-! ### QtImageCache (gui_qt.py lines 219-267) -/

/-- Provenance of a `QPixmap` value as `get_icon` builds them: loaded from
the disk cache, decoded from fetched bytes, a decoded pixmap scaled to the
requested size, or the blank transparent placeholder of a given size. -/
inductive Pix
  | fromDisk (p : Pix)
  | decoded (data : List Nat)
  | scaled (base : Pix) (w h : Nat)
  | blank (w h : Nat)
  deriving DecidableEq

/-- `QIcon` built from a pixmap. -/
structure Icon where
  pix : Pix
  deriving DecidableEq

/-- The cache key `(url, w, h)`; the on-disk path is a sha1-derived
filename determined by exactly this key (`_path_for`). -/
abbrev IconKey : Type := String × Nat × Nat

/-- The environment `get_icon` interacts with: the disk cache
(`QPixmap.load` on the key's path), the network fetch
(`self._twitch.request` + `resp.read`, which can raise), whether
`QPixmap.loadFromData` can decode given bytes, and whether `QPixmap.save`
raises. -/
structure IconFetchEnv where
  disk_load : IconKey → Option Pix
  fetch : Except PyErr (Nat × List Nat)
  decode_ok : List Nat → Bool
  save_raises : Bool

/-- The in-memory icon cache `_mem` of `QtImageCache`. -/
structure QtImageCache where
  _mem : List (IconKey × Icon)
  deriving DecidableEq

/-- Whether an `Except` computation completed without raising. -/
def exceptOk {ε α : Type} : Except ε α → Bool
  | .ok _ => true
  | .error _ => false

/-- The three request branches of `get_icon`'s fetch (gui_qt.py lines
243-249) land in a placeholder: the request raised, the status was not
200, the body was empty, or the bytes did not decode. -/
def fetchFails (env : IconFetchEnv) : Bool :=
  match env.fetch with
  | .error _ => true
  | .ok (status, body) => decide (status ≠ 200) || body.isEmpty || !env.decode_ok body

/-- `QtImageCache.get_icon` (gui_qt.py lines 230-267): memory cache, then
disk cache, then fetch; any fetch failure degrades to a blank transparent
pixmap of the requested size; the best-effort disk save's exception is
swallowed.  Returns the updated cache together with the icon. -/
def QtImageCache.get_icon (cache : QtImageCache) (env : IconFetchEnv)
    (url : String) (w h : Nat) : Except PyErr (QtImageCache × Icon) :=
  let key : IconKey := (url, w, h)
  match cache._mem.lookup key with
  | some icon => .ok (cache, icon)
  | none =>
    match env.disk_load key with
    | some p =>
      let icon := Icon.mk (.fromDisk p)
      .ok (⟨(key, icon) :: cache._mem⟩, icon)
    | none =>
      -- try: request; if status == 200: data = await resp.read()
      -- except Exception: data = None
      let data : Option (List Nat) :=
        match env.fetch with
        | .error _ => none
        | .ok (status, body) => if status = 200 then some body else none
      -- if data: pix.loadFromData(data)  (empty bytes are falsy)
      let loaded : Option Pix :=
        match data with
        | none => none
        | some [] => none
        | some b => if env.decode_ok b then some (.decoded b) else none
      -- if pix.isNull(): blank transparent w×h else scaled to w×h
      let pix : Pix :=
        match loaded with
        | none => .blank w h
        | some p => .scaled p w h
      -- try: pix.save(path, "PNG") except Exception: pass
      let _saved : Except PyErr Unit :=
        if env.save_raises then .error .saveError else .ok ()
      let icon := Icon.mk pix
      .ok (⟨(key, icon) :: cache._mem⟩, icon)

/-! ### WebsocketStatus (gui_qt.py lines 156-201) -/

/-- One entry of the `_items` map: last written status text and topic
count for a websocket slot. -/
structure WsItem where
  status : String
  topics : Nat
  deriving DecidableEq

/-- One row of the status table, columns 1 (status) and 2 (topics); column
0 holds the fixed row index and is never rewritten. -/
structure WsRow where
  c1 : String
  c2 : String
  deriving DecidableEq

/-- The `WebsocketStatus` widget state: the `_items` map (association
list) and the table rows. -/
structure WebsocketStatus where
  _items : List (Nat × WsItem)
  _table : List WsRow
  deriving DecidableEq

/-- Store a value under a key in an association list, replacing an
existing binding (Python dict assignment `self._items[idx] = item`). -/
def assocSet : List (Nat × WsItem) → Nat → WsItem → List (Nat × WsItem)
  | [], k, v => [(k, v)]
  | (k0, v0) :: rest, k, v =>
    if k0 = k then (k, v) :: rest else (k0, v0) :: assocSet rest k v

/-- `self._table.item(i, c).setText(...)` on both writable columns of row
`i`: raises (`AttributeError` on the `None` item) when the row does not
exist. -/
def tableSetText (table : List WsRow) (i : Nat) (c1 c2 : String) :
    Except PyErr (List WsRow) :=
  match table.get? i with
  | none => .error .attributeError
  | some _ => .ok (table.set i ⟨c1, c2⟩)

/-- The item-merge step of `WebsocketStatus.update` (gui_qt.py lines
188-192): start from the stored item (or the `{"", 0}` default) and
overwrite exactly the supplied fields. -/
def WebsocketStatus.merged_item (s : WebsocketStatus) (i : Nat)
    (status : Option String) (topics : Option Nat) : WsItem :=
  let item0 := (s._items.lookup i).getD ⟨"", 0⟩
  let item1 :=
    match status with
    | some st => { item0 with status := st }
    | none => item0
  match topics with
  | some t => { item1 with topics := t }
  | none => item1

/-- `WebsocketStatus.update` (gui_qt.py lines 185-195), parameterized by
the constants `MAX_WEBSOCKETS` and `WS_TOPICS_LIMIT` from `constants.py`:
guard the index, merge the item, store it, and render status into column 1
and `f"{topics}/{WS_TOPICS_LIMIT}"` into column 2. -/
def WebsocketStatus.update (maxWebsockets wsTopicsLimit : Nat)
    (s : WebsocketStatus) (idx : Int) (status : Option String)
    (topics : Option Nat) : Except PyErr WebsocketStatus :=
  if idx < 0 ∨ (maxWebsockets : Int) ≤ idx then .ok s
  else
    let i := idx.toNat
    let item := s.merged_item i status topics
    match tableSetText s._table i item.status
        (toString item.topics ++ "/" ++ toString wsTopicsLimit) with
    | .ok table2 => .ok ⟨assocSet s._items i item, table2⟩
    | .error e => .error e

/-! ### Demo values used by the witness theorems -/

/-- A timestamp in the shape produced by `strftime("%X")`. -/
def demoStamp : List Char := "12:34:56".data

/-- A two-line message. -/
def demoMsg : List Char := "ab\ncd".data

/-- The attempt sequence of the spec's login scenario: first attempt with
too-short username and password, second attempt valid. -/
def demoAttempts : List RawAttempt :=
  [⟨"ab", "short", ""⟩, ⟨"valid_user", "longenough1", ""⟩]

/-- A form whose username fails validation. -/
def demoForm : LoginForm :=
  ⟨"ab", "longenough1", "", false, none⟩

/-- A fetch environment in which everything below the memory cache
fails. -/
def demoFailEnv : IconFetchEnv :=
  ⟨fun _ => none, .error .requestError, fun _ => false, true⟩

/-- A websocket status table with two empty rows and no items. -/
def demoWs : WebsocketStatus :=
  ⟨[], [⟨"", ""⟩, ⟨"", ""⟩]⟩

/-! ## Theorems -/

/-- C1: on every exit path of `_wait_for_confirm` — normal resolution,
abandonment via `ExitRequest`, or cancellation of the awaiting task, and
for any behaviour of the awaited body — the confirm control is disabled
again and the pending-request slot `_confirm_future` is reset to empty
before the call returns or propagates. -/
theorem wait_for_confirm_releases_on_every_path
    (body : LoginForm → WaitOutcome × LoginForm) (s : LoginForm) :
    (LoginForm._wait_for_confirm body s).2._confirm_enabled = false
      ∧ (LoginForm._wait_for_confirm body s).2._confirm_future = none :=
  ⟨rfl, rfl⟩

/-- C2: `coro_unless_closed` races the awaited value against the close
wait: if the coroutine completes first (the close event is not set) the
call returns its result and cancels the pending close wait; if the close
signal wins the call cancels the coroutine's wait and raises
`ExitRequest` instead of returning a value. -/
theorem coro_unless_closed_race_semantics {α : Type} (v : α) :
    GUIManager.coro_unless_closed ⟨some v, false⟩ = some (.ok v, false, true)
      ∧ GUIManager.coro_unless_closed (⟨none, true⟩ : RaceObs α)
          = some (.error .exitRequest, true, false) :=
  ⟨rfl, rfl⟩

/-- C3: when no confirmation request is outstanding (the pending future is
absent or already completed), `_on_confirm` is a no-op: it raises no
exception and leaves the state unchanged; moreover, after any successful
call a redundant second call is a no-op. -/
theorem on_confirm_noop_when_not_pending (s : LoginForm) :
    ((s._confirm_future = none
          ∨ ∃ f, s._confirm_future = some f ∧ f.done = true) →
        LoginForm._on_confirm s = .ok s)
      ∧ ∀ s2, LoginForm._on_confirm s = .ok s2 →
          LoginForm._on_confirm s2 = .ok s2 := by
  constructor
  · rintro (h | ⟨f, hf, hdone⟩)
    · simp [LoginForm._on_confirm, h]
    · simp [LoginForm._on_confirm, hf, hdone]
  · intro s2 h2
    cases hf : s._confirm_future with
    | none =>
      simp [LoginForm._on_confirm, hf] at h2
      subst h2
      simp [LoginForm._on_confirm, hf]
    | some f =>
      cases f with
      | pending =>
        simp [LoginForm._on_confirm, hf, FutureState.done,
          FutureState.set_result] at h2
        subst h2
        simp [LoginForm._on_confirm, FutureState.done]
      | resolved =>
        simp [LoginForm._on_confirm, hf, FutureState.done] at h2
        subst h2
        simp [LoginForm._on_confirm, hf, FutureState.done]
      | cancelled =>
        simp [LoginForm._on_confirm, hf, FutureState.done] at h2
        subst h2
        simp [LoginForm._on_confirm, hf, FutureState.done]

/-- Witness for C3: a concrete call with no outstanding request returns
the state unchanged. -/
theorem on_confirm_noop_witness :
    LoginForm._on_confirm ⟨"", "", "", false, none⟩
      = .ok ⟨"", "", "", false, none⟩ :=
  (on_confirm_noop_when_not_pending ⟨"", "", "", false, none⟩).1 (Or.inl rfl)

/-- C6: once the close signal is set by `close()`, every in-flight and
every subsequently started `coro_unless_closed` call — any number of
concurrently suspended waiters, whatever the completion state of their
coroutines — takes the abandonment path and raises `ExitRequest` rather
than returning normally, and every `wait_until_closed` call completes. -/
theorem close_unblocks_all_waiters {α : Type} (g : GUIManager)
    (waiters : List (Option α)) :
    (∀ w ∈ waiters,
        GUIManager.coro_unless_closed ⟨w, (g.close).1._close_requested⟩
          = some (.error .exitRequest, w.isNone, false))
      ∧ (g.close).1.wait_until_closed = some () := by
  refine ⟨fun w _ => rfl, rfl⟩

/-- Witness for C6: with the close signal set, a concrete suspended waiter
is abandoned with `ExitRequest` and `wait_until_closed` completes. -/
theorem close_unblocks_all_waiters_witness :
    GUIManager.coro_unless_closed
        ⟨(none : Option Nat), ((⟨false⟩ : GUIManager).close).1._close_requested⟩
        = some (.error .exitRequest, true, false)
      ∧ ((⟨false⟩ : GUIManager).close).1.wait_until_closed = some () := by
  have h := close_unblocks_all_waiters (⟨false⟩ : GUIManager) [(none : Option Nat)]
  exact ⟨h.1 none (List.mem_singleton.mpr rfl), h.2⟩

/-- C7: the close signal is monotonic within a cycle and resettable across
cycles: after any sequence of `close()` / `prevent_close()` calls,
`close_requested` is set exactly when the most recent call was `close()`
(and keeps its prior value when no call was made); in particular a
`close()` after `prevent_close()` re-arms the signal, and only
`prevent_close` clears a set signal. -/
theorem close_requested_tracks_last_op (g : GUIManager) (ops : List CloseOp) :
    (g.apply_ops ops)._close_requested
      = match ops.getLast? with
        | some .close_req => true
        | some .prevent => false
        | none => g._close_requested := by
  induction ops generalizing g with
  | nil => rfl
  | cons op rest ih =>
    cases rest with
    | nil => cases op <;> rfl
    | cons op2 rest2 =>
      have h := ih (g.apply_op op)
      cases hl : (op2 :: rest2).getLast? with
      | none => simp [List.getLast?] at hl
      | some o =>
        rw [hl] at h
        cases o <;>
          simpa [GUIManager.apply_ops, List.foldl, List.getLast?_cons_cons, hl] using h

/-- `splitLines` never returns the empty list of lines. -/
theorem splitLines_ne_nil (l : List Char) : splitLines l ≠ [] := by
  induction l with
  | nil => simp [splitLines]
  | cons c rest ih =>
    simp only [splitLines]
    split <;> simp

/-- Splitting after a non-newline head prepends it to the first line. -/
theorem splitLines_cons_of_ne (c : Char) (rest : List Char) (h : c ≠ '\n') :
    splitLines (c :: rest)
      = (c :: (splitLines rest).headI) :: (splitLines rest).tail := by
  simp only [splitLines]
  rw [if_neg h]

/-- Splitting after a newline head starts a fresh empty first line. -/
theorem splitLines_newline_cons (rest : List Char) :
    splitLines ('\n' :: rest) = [] :: splitLines rest := by
  simp [splitLines]

/-- A newline-free sequence is a single line. -/
theorem splitLines_eq_single (l : List Char) (h : '\n' ∉ l) :
    splitLines l = [l] := by
  induction l with
  | nil => simp [splitLines]
  | cons c rest ih =>
    rw [List.mem_cons] at h
    push_neg at h
    rw [splitLines_cons_of_ne c rest (fun e => h.1 e.symm), ih h.2]
    simp

/-- Prepending a newline-free block extends the first line only. -/
theorem splitLines_append_of_no_newline (a x : List Char) (h : '\n' ∉ a) :
    splitLines (a ++ x)
      = (a ++ (splitLines x).headI) :: (splitLines x).tail := by
  induction a with
  | nil =>
    cases hs : splitLines x with
    | nil => exact absurd hs (splitLines_ne_nil x)
    | cons l ls => simp [hs]
  | cons c a2 ih =>
    rw [List.mem_cons] at h
    push_neg at h
    rw [List.cons_append, splitLines_cons_of_ne c (a2 ++ x) (fun e => h.1 e.symm),
      ih h.2]
    simp

/-- `restamp` keeps the first line and prefixes every later line with the
stamp. -/
theorem splitLines_restamp (stamp : List Char) (h : '\n' ∉ stamp)
    (msg : List Char) :
    splitLines (ConsoleOutput.restamp stamp msg)
      = (splitLines msg).headI
          :: ((splitLines msg).tail.map fun l => stamp ++ [':', ' '] ++ l) := by
  have hns : '\n' ∉ stamp ++ [':', ' '] := by
    intro hm
    rcases List.mem_append.mp hm with hm | hm
    · exact h hm
    · simp at hm
  induction msg with
  | nil => simp [ConsoleOutput.restamp, splitLines]
  | cons c rest ih =>
    by_cases hc : c = '\n'
    · subst hc
      have hstep : ConsoleOutput.restamp stamp ('\n' :: rest)
          = '\n' :: (stamp ++ [':', ' '] ++ ConsoleOutput.restamp stamp rest) := by
        simp [ConsoleOutput.restamp]
      rw [hstep, splitLines_newline_cons, splitLines_newline_cons,
        splitLines_append_of_no_newline _ _ hns, ih]
      cases hs : splitLines rest with
      | nil => exact absurd hs (splitLines_ne_nil rest)
      | cons l ls => simp [hs]
    · have hstep : ConsoleOutput.restamp stamp (c :: rest)
          = c :: ConsoleOutput.restamp stamp rest := by
        simp only [ConsoleOutput.restamp]
        rw [if_neg hc]
      rw [hstep, splitLines_cons_of_ne c _ hc, splitLines_cons_of_ne c rest hc, ih]
      cases hs : splitLines rest with
      | nil => exact absurd hs (splitLines_ne_nil rest)
      | cons l ls => simp [hs]

/-- C9: for every message, the text `ConsoleOutput.print` renders has
exactly one output line per input line, and every line — including each
line of a multi-line message — is prefixed with the timestamp stamp
followed by ": ". -/
theorem console_print_stamps_each_line (stamp msg : List Char)
    (h : '\n' ∉ stamp) :
    splitLines (ConsoleOutput.print stamp msg)
      = (splitLines msg).map fun l => stamp ++ [':', ' '] ++ l := by
  have hns : '\n' ∉ stamp ++ [':', ' '] := by
    intro hm
    rcases List.mem_append.mp hm with hm | hm
    · exact h hm
    · simp at hm
  unfold ConsoleOutput.print
  by_cases hm : '\n' ∈ msg
  · rw [if_pos hm, splitLines_append_of_no_newline _ _ hns,
      splitLines_restamp stamp h msg]
    cases hs : splitLines msg with
    | nil => exact absurd hs (splitLines_ne_nil msg)
    | cons l ls => simp
  · rw [if_neg hm, splitLines_append_of_no_newline _ _ hns,
      splitLines_eq_single msg hm]
    simp

/-- Witness for C9: a concrete two-line message rendered with a concrete
timestamp gets both lines stamped. -/
theorem console_print_stamps_witness :
    ('\n' ∉ demoStamp)
      ∧ splitLines (ConsoleOutput.print demoStamp demoMsg)
          = (splitLines demoMsg).map fun l => demoStamp ++ [':', ' '] ++ l :=
  ⟨by decide, console_print_stamps_each_line demoStamp demoMsg (by decide)⟩

/-- The head surviving `dropWhile p` does not satisfy `p`. -/
theorem head?_dropWhile_false {p : Char → Bool} (l : List Char) (c : Char)
    (h : (l.dropWhile p).head? = some c) : p c = false := by
  induction l with
  | nil => simp [List.dropWhile] at h
  | cons a rest ih =>
    rw [List.dropWhile_cons] at h
    by_cases hp : p a = true
    · rw [if_pos hp] at h
      exact ih h
    · rw [if_neg hp] at h
      simp at h
      rw [h] at hp
      simpa using hp

/-- A stripped string does not end in whitespace. -/
theorem pyStrip_last_not_space (s : String) (c : Char)
    (h : (pyStrip s).data.getLast? = some c) : isPySpace c = false := by
  have h2 :
      ((s.data.dropWhile isPySpace).reverse.dropWhile isPySpace).head? = some c := by
    simpa [pyStrip, List.getLast?_reverse] using h
  exact head?_dropWhile_false _ c h2

/-- Without a trailing newline, the `$`-before-newline alternative of the
username regex is vacuous. -/
theorem matchUsernameRe_no_trailing_nl (s : String)
    (h : s.data.getLast? ≠ some '\n') :
    matchUsernameRe s = usernameCore s.data := by
  have hb : (s.data.getLast? == some '\n') = false := beq_eq_false_iff_ne.mpr h
  simp [matchUsernameRe, hb]

/-- For strings without a trailing newline, the code's username check is
exactly the spec's shape `[A-Za-z0-9_]{3,25}`. -/
theorem usernameOk_iff (u : String) (h : u.data.getLast? ≠ some '\n') :
    usernameOk u = true
      ↔ (3 ≤ u.length ∧ u.length ≤ 25 ∧ ∀ c ∈ u.data, isWordChar c = true) := by
  simp only [usernameOk, usernameCore, matchUsernameRe_no_trailing_nl u h,
    Bool.and_eq_true]
  constructor
  · rintro ⟨hlen, _, hall⟩
    have hl := of_decide_eq_true hlen
    exact ⟨hl.1, hl.2, List.all_eq_true.mp hall⟩
  · rintro ⟨h1, h2, h3⟩
    have hne : u.data ≠ [] := by
      intro he
      rw [String.length, he] at h1
      simp at h1
    refine ⟨decide_eq_true ⟨h1, h2⟩, ?_, List.all_eq_true.mpr h3⟩
    cases hd : u.data with
    | nil => exact absurd hd hne
    | cons x xs => rfl

/-- The validation chain accepts exactly when each of the three checks
passes. -/
theorem validate_eq_none_iff (d : LoginData) :
    validate d = none
      ↔ (usernameOk d.username = true ∧ 8 ≤ d.password.length
          ∧ (d.token = "" ∨ 6 ≤ d.token.length)) := by
  unfold validate
  split_ifs with h1 h2 h3
  · simp [h1]
  · simp only [Bool.not_eq_false] at h1
    simp only [reduceCtorEq, false_iff, not_and]
    intro _ hlen
    omega
  · simp only [reduceCtorEq, false_iff, not_and]
    rintro - -
    rintro (he | hge)
    · exact h3.1 he
    · omega
  · simp only [Bool.not_eq_false] at h1
    push_neg at h3
    simp only [true_iff]
    refine ⟨h1, by omega, ?_⟩
    by_cases he : d.token = ""
    · exact Or.inl he
    · exact Or.inr (h3 he)

/-- C4: `ask_login` returns a `LoginData` exactly when some confirmed
attempt passes all three constraints — username of shape
`[A-Za-z0-9_]{3,25}`, password of length at least 8, token empty or of
length at least 6 — and the returned value carries exactly the field
values of the first passing attempt; the loop consumes any number of
rejected attempts before that (no retry bound). -/
theorem ask_login_returns_first_valid_attempt (attempts : List RawAttempt) :
    LoginForm.ask_login attempts
        = (attempts.find? goodAttempt).map loginDataOf
      ∧ ∀ a : RawAttempt, goodAttempt a = true ↔ specLoginContract (loginDataOf a) := by
  constructor
  · induction attempts with
    | nil => rfl
    | cons a rest ih =>
      simp only [LoginForm.ask_login, List.find?]
      cases hv : validate (loginDataOf a) with
      | none =>
        have hg : goodAttempt a = true := by simp [goodAttempt, hv]
        simp [hg]
      | some f =>
        have hg : goodAttempt a = false := by simp [goodAttempt, hv]
        simp [hg, ih]
  · intro a
    have hu : (pyStrip a.login).data.getLast? ≠ some '\n' := by
      intro hl
      have hsp := pyStrip_last_not_space a.login '\n' hl
      simp [isPySpace] at hsp
    rw [goodAttempt, Option.isNone_iff_eq_none, validate_eq_none_iff]
    simp only [loginDataOf, specLoginContract]
    rw [usernameOk_iff _ hu]
    simp only [isWordChar, Bool.or_eq_true, beq_iff_eq]

/-- Witness for C4: the spec's login scenario — a first attempt with
too-short username and password, then a valid attempt — returns the
second attempt's values. -/
theorem ask_login_witness :
    LoginForm.ask_login demoAttempts
      = some ⟨"valid_user", "longenough1", ""⟩ := by
  have h := (ask_login_returns_first_valid_attempt demoAttempts).1
  rw [h]
  decide

/-- C5: each rejection cycle of the login loop clears exactly the
offending field and leaves every other part of the form untouched: an
invalid username clears only the username field, a too-short password
(with valid username) clears only the password field, and a short
non-empty token (with valid username and password) clears only the token
field. -/
theorem login_reject_clears_only_offending_field (s : LoginForm) :
    (usernameOk (pyStrip s._login) = false →
        LoginForm.loop_iteration s = ({ s with _login := "" }, none))
      ∧ (usernameOk (pyStrip s._login) = true → s._password.length < 8 →
          LoginForm.loop_iteration s = ({ s with _password := "" }, none))
      ∧ (usernameOk (pyStrip s._login) = true → 8 ≤ s._password.length →
          pyStrip s._token ≠ "" → (pyStrip s._token).length < 6 →
          LoginForm.loop_iteration s = ({ s with _token := "" }, none)) := by
  refine ⟨?_, ?_, ?_⟩
  · intro h
    simp [LoginForm.loop_iteration, loginDataOf, validate, h, LoginForm.clear]
  · intro h1 h2
    simp [LoginForm.loop_iteration, loginDataOf, validate, h1, h2, LoginForm.clear]
  · intro h1 h2 h3 h4
    simp [LoginForm.loop_iteration, loginDataOf, validate, h1, h2, h3, h4,
      LoginForm.clear, Nat.not_lt.mpr h2]

/-- Witness for C5: a concrete form with an invalid username loses only
its username field. -/
theorem login_reject_witness :
    LoginForm.loop_iteration demoForm = ({ demoForm with _login := "" }, none) :=
  (login_reject_clears_only_offending_field demoForm).1 (by decide)

/-- C8: `get_icon` never propagates a resource-fetch error to its caller,
and on any fetch failure below the caches — request exception, non-200
status, or undecodable (or empty) image data — it returns an icon built
from the blank transparent placeholder pixmap of the requested size; the
best-effort cache write failure is likewise swallowed (the result does not
depend on `save_raises`). -/
theorem get_icon_never_fails (cache : QtImageCache) (env : IconFetchEnv)
    (url : String) (w h : Nat) :
    exceptOk (QtImageCache.get_icon cache env url w h) = true
      ∧ (cache._mem.lookup (url, w, h) = none →
          env.disk_load (url, w, h) = none →
          fetchFails env = true →
          QtImageCache.get_icon cache env url w h
            = .ok (⟨((url, w, h), Icon.mk (.blank w h)) :: cache._mem⟩,
                Icon.mk (.blank w h))) := by
  constructor
  · cases hm : cache._mem.lookup (url, w, h) with
    | some icon => simp [QtImageCache.get_icon, hm, exceptOk]
    | none =>
      cases hd : env.disk_load (url, w, h) with
      | some p => simp [QtImageCache.get_icon, hm, hd, exceptOk]
      | none => simp [QtImageCache.get_icon, hm, hd, exceptOk]
  · intro h1 h2 h3
    cases hf : env.fetch with
    | error e => simp [QtImageCache.get_icon, h1, h2, hf]
    | ok pair =>
      obtain ⟨status, body⟩ := pair
      simp only [fetchFails, hf] at h3
      by_cases hs : status = 200
      · subst hs
        cases body with
        | nil => simp [QtImageCache.get_icon, h1, h2, hf]
        | cons x xs =>
          have hd3 : env.decode_ok (x :: xs) = false := by simpa using h3
          simp [QtImageCache.get_icon, h1, h2, hf, hd3]
      · simp [QtImageCache.get_icon, h1, h2, hf, hs]

/-- Witness for C8: with an empty memory cache, a missing disk entry and a
raising fetch, `get_icon` returns the blank placeholder icon of the
requested size. -/
theorem get_icon_witness :
    QtImageCache.get_icon ⟨[]⟩ demoFailEnv "url" 4 6
      = .ok (⟨[(("url", 4, 6), Icon.mk (.blank 4 6))]⟩, Icon.mk (.blank 4 6)) :=
  (get_icon_never_fails ⟨[]⟩ demoFailEnv "url" 4 6).2 rfl rfl rfl

/-- C10: for any constants `MAX_WEBSOCKETS`/`WS_TOPICS_LIMIT` and a table
with one row per websocket slot, `update` with an out-of-range index is a
no-op that raises no exception and changes nothing; with an in-range
index it stores the merged item, writes its status into column 1 and
renders `topics/WS_TOPICS_LIMIT` into column 2 of that row, and the merge
preserves whichever of status/topics was not supplied. -/
theorem websocket_update_bounds_and_render (maxWs limit : Nat)
    (s : WebsocketStatus) (idx : Int) (st : Option String) (tp : Option Nat)
    (hlen : s._table.length = maxWs) :
    ((idx < 0 ∨ (maxWs : Int) ≤ idx) →
        WebsocketStatus.update maxWs limit s idx st tp = .ok s)
      ∧ (0 ≤ idx → idx < (maxWs : Int) →
          WebsocketStatus.update maxWs limit s idx st tp
              = .ok ⟨assocSet s._items idx.toNat (s.merged_item idx.toNat st tp),
                  s._table.set idx.toNat
                    ⟨(s.merged_item idx.toNat st tp).status,
                      toString (s.merged_item idx.toNat st tp).topics
                        ++ "/" ++ toString limit⟩⟩
            ∧ (st = none →
                (s.merged_item idx.toNat st tp).status
                  = ((s._items.lookup idx.toNat).getD ⟨"", 0⟩).status)
            ∧ (tp = none →
                (s.merged_item idx.toNat st tp).topics
                  = ((s._items.lookup idx.toNat).getD ⟨"", 0⟩).topics)) := by
  constructor
  · intro hout
    simp [WebsocketStatus.update, hout]
  · intro h0 h1
    have hguard : ¬(idx < 0 ∨ (maxWs : Int) ≤ idx) := by omega
    have hi : idx.toNat < s._table.length := by
      rw [hlen]
      omega
    refine ⟨?_, ?_, ?_⟩
    · simp only [WebsocketStatus.update, if_neg hguard, tableSetText]
      cases hget : s._table[idx.toNat]? with
      | none =>
        have := List.getElem?_eq_none_iff.mp hget
        omega
      | some row => simp [hget]
    · intro hst
      subst hst
      cases tp <;> rfl
    · intro htp
      subst htp
      cases st <;> rfl

/-- Witness for C10: on a fresh two-row table with limit 50, updating slot
0 with a status and no topic count writes the status and renders `0/50`,
preserving the default topic count. -/
theorem websocket_update_witness :
    WebsocketStatus.update 2 50 demoWs 0 (some "conn") none
      = .ok ⟨[(0, ⟨"conn", 0⟩)], [⟨"conn", "0/50"⟩, ⟨"", ""⟩]⟩ := by
  have h := (websocket_update_bounds_and_render 2 50 demoWs 0 (some "conn") none
    rfl).2 (by omega) (by omega)
  rw [h.1]
  rfl
